import Mathlib

/-!
Shallow embedding of the PrismVote contract (src/contracts/PrismVote.sol)
and proofs of its specified properties.

The FHE primitive library is external to the contract; ciphertexts are
modelled symbolically as terms recording exactly which homomorphic
operations produced them (`FHE.asEuint32`, `FHE.fromExternal`, `FHE.add`,
`FHE.select`, with `FHE.eq` producing a symbolic encrypted boolean).
`FHE.checkSignatures` is modelled as an arbitrary boolean oracle supplied
as a parameter; `FHE.makePubliclyDecryptable` is modelled by a list of
marked ciphertext handles carried in the state.  `FHE.allowThis` is an
ACL permission call with no observable effect on any property treated
here and is omitted.  Solidity `require` failures revert the whole
transaction; operations return `Except (Err × State)` where the state
carried with an error is the state at the failure point, so that
atomicity on failure is a provable property rather than a modelling
artifact.
-/

namespace PrismVote

mutual
/-- Symbolic ciphertext terms (`euint32` values of the FHE library). -/
inductive Ciph : Type where
  | uninit : Ciph
  | asEuint32 : Nat → Ciph
  | fromExternal : Nat → Nat → Ciph
  | add : Ciph → Ciph → Ciph
  | select : EBool → Ciph → Ciph → Ciph
  deriving DecidableEq
/-- Symbolic encrypted booleans (`ebool` values of the FHE library). -/
inductive EBool : Type where
  | eq : Ciph → Ciph → EBool
  deriving DecidableEq
end

/-- Failure modes of the contract, one per `require` / reverting call. -/
inductive Err : Type where
  | NotFound
  | InvalidConfiguration
  | PollClosed
  | NotStarted
  | PollExpired
  | DuplicateVote
  | AlreadyEnded
  | StillActive
  | NotReady
  | AlreadyPublished
  | LengthMismatch
  | InvalidProof
  | OutOfBounds
  deriving DecidableEq

/-- Events emitted by the contract. -/
inductive Event : Type where
  | PollCreated : Nat → Nat → String → Nat → Nat → Nat → Event
  | VoteCast : Nat → Nat → Event
  | PollEnded : Nat → Event
  | ResultsPublished : Nat → Event
  deriving DecidableEq

/-- The `Poll` struct.  Fixed-size Solidity arrays (`string[4]`,
`euint32[4]`, `uint32[4]`) are modelled as lists of length 4. -/
structure Poll : Type where
  title : String
  options : List String
  optionCount : Nat
  startTime : Nat
  endTime : Nat
  creator : Nat
  ended : Bool
  publicReady : Bool
  resultsPublished : Bool
  encryptedCounts : List Ciph
  publicCounts : List Nat
  deriving DecidableEq

/-- The default value of a `Poll` storage slot (all fields zeroed). -/
def defaultPoll : Poll :=
  { title := ""
    options := ["", "", "", ""]
    optionCount := 0
    startTime := 0
    endTime := 0
    creator := 0
    ended := false
    publicReady := false
    resultsPublished := false
    encryptedCounts := [Ciph.uninit, Ciph.uninit, Ciph.uninit, Ciph.uninit]
    publicCounts := [0, 0, 0, 0] }

/-- Full observable state: contract storage (`_polls`, `_hasVoted`,
`_pollCount`), the set of ciphertext handles the FHE coprocessor has
marked publicly decryptable, and the emitted event log. -/
structure State : Type where
  polls : Nat → Poll
  hasVoted : Nat → Nat → Bool
  pollCount : Nat
  marked : List Ciph
  events : List Event

/-- The state of a freshly deployed contract. -/
def initState : State :=
  { polls := fun _ => defaultPoll
    hasVoted := fun _ _ => false
    pollCount := 0
    marked := []
    events := [] }

/-- Write one poll storage slot. -/
def setPoll (s : State) (pollId : Nat) (p : Poll) : State :=
  { s with polls := fun j => if j = pollId then p else s.polls j }

/-- The oracle for `FHE.checkSignatures`: given the ciphertext handles,
the claimed cleartext encoding and the decryption proof, decide whether
the proof authenticates the pair. -/
abbrev SigChecker := List Ciph → List Nat → Nat → Bool

/-- Loop `for i in [0, n): poll.options[i] = options[i]` of `createPoll`. -/
def storeOptions (arg : List String) : Nat → List String → List String
  | 0, st => st
  | n + 1, st => (storeOptions arg n st).set n (arg.getD n "")

/-- Loop `for i in [0, n): poll.encryptedCounts[i] = FHE.asEuint32(0)` of
`createPoll` (run with `n = 4`). -/
def initCountsLoop : Nat → List Ciph → List Ciph
  | 0, cs => cs
  | n + 1, cs => (initCountsLoop n cs).set n (Ciph.asEuint32 0)

/-- The state transformation of a successful `createPoll`, after the two
`require` checks have passed. -/
def createPollEffect (s : State) (sender : Nat) (title : String)
    (options : List String) (startTime endTime : Nat) : State :=
  let pollId := s.pollCount
  let s1 : State := { s with pollCount := s.pollCount + 1 }
  let poll := s1.polls pollId
  let poll :=
    { poll with
        title := title
        optionCount := options.length
        startTime := startTime
        endTime := endTime
        creator := sender }
  let poll := { poll with options := storeOptions options poll.optionCount poll.options }
  let poll := { poll with encryptedCounts := initCountsLoop 4 poll.encryptedCounts }
  let s2 := setPoll s1 pollId poll
  { s2 with
      events := s2.events ++
        [Event.PollCreated pollId sender title options.length startTime endTime] }

/-- `createPoll(title, options, startTime, endTime)`.  Returns the new
state and the allocated poll id, or the error and the state at the
failure point. -/
def createPoll (s : State) (sender : Nat) (title : String)
    (options : List String) (startTime endTime : Nat) :
    Except (Err × State) (State × Nat) :=
  if ¬ (2 ≤ options.length ∧ options.length ≤ 4) then
    .error (.InvalidConfiguration, s)
  else if ¬ (startTime < endTime) then
    .error (.InvalidConfiguration, s)
  else
    .ok (createPollEffect s sender title options startTime endTime, s.pollCount)

/-- The increment added to slot `i` on a vote:
`FHE.select(FHE.eq(choice, FHE.asEuint32(i)), one, zero)`. -/
def voteIncrement (choice : Ciph) (i : Nat) : Ciph :=
  Ciph.select (EBool.eq choice (Ciph.asEuint32 i)) (Ciph.asEuint32 1) (Ciph.asEuint32 0)

/-- The compare-and-select-add loop of `vote`, iterations `0, …, n-1`:
`poll.encryptedCounts[i] = FHE.add(poll.encryptedCounts[i], increment)`. -/
def voteLoop (choice : Ciph) : Nat → List Ciph → List Ciph
  | 0, cs => cs
  | n + 1, cs =>
    let cs1 := voteLoop choice n cs
    cs1.set n (Ciph.add (cs1.getD n Ciph.uninit) (voteIncrement choice n))

/-- The state transformation of a successful `vote`, after all `require`
checks have passed. -/
def voteEffect (s : State) (sender : Nat) (pollId : Nat)
    (encryptedChoice inputProof : Nat) : State :=
  let poll := s.polls pollId
  let choice := Ciph.fromExternal encryptedChoice inputProof
  let poll := { poll with encryptedCounts := voteLoop choice poll.optionCount poll.encryptedCounts }
  let s1 := setPoll s pollId poll
  let s2 : State :=
    { s1 with hasVoted := fun p a => if p = pollId ∧ a = sender then true else s1.hasVoted p a }
  { s2 with events := s2.events ++ [Event.VoteCast pollId sender] }

/-- `vote(pollId, encryptedChoice, inputProof)` at time `now`. -/
def vote (s : State) (sender : Nat) (now : Nat) (pollId : Nat)
    (encryptedChoice inputProof : Nat) : Except (Err × State) State :=
  if ¬ (pollId < s.pollCount) then .error (.NotFound, s)
  else if (s.polls pollId).ended then .error (.PollClosed, s)
  else if now < (s.polls pollId).startTime then .error (.NotStarted, s)
  else if ¬ (now < (s.polls pollId).endTime) then .error (.PollExpired, s)
  else if s.hasVoted pollId sender then .error (.DuplicateVote, s)
  else .ok (voteEffect s sender pollId encryptedChoice inputProof)

/-- The marking loop of `endPoll`, iterations `0, …, n-1`:
`FHE.makePubliclyDecryptable(poll.encryptedCounts[i])`. -/
def markLoop (counts : List Ciph) : Nat → List Ciph → List Ciph
  | 0, marked => marked
  | n + 1, marked => markLoop counts n marked ++ [counts.getD n Ciph.uninit]

/-- The state transformation of a successful `endPoll`. -/
def endPollEffect (s : State) (pollId : Nat) : State :=
  let poll := s.polls pollId
  let poll := { poll with ended := true, publicReady := true }
  let s1 := setPoll s pollId poll
  let s2 : State := { s1 with marked := markLoop poll.encryptedCounts poll.optionCount s1.marked }
  { s2 with events := s2.events ++ [Event.PollEnded pollId] }

/-- `endPoll(pollId)` at time `now`. -/
def endPoll (s : State) (now : Nat) (pollId : Nat) :
    Except (Err × State) State :=
  if ¬ (pollId < s.pollCount) then .error (.NotFound, s)
  else if (s.polls pollId).ended then .error (.AlreadyEnded, s)
  else if now < (s.polls pollId).endTime then .error (.StillActive, s)
  else .ok (endPollEffect s pollId)

/-- The handles array built by `publishResults`:
`handles[i] = euint32.unwrap(poll.encryptedCounts[i])` for `i < n`. -/
def handlesLoop (counts : List Ciph) : Nat → List Ciph
  | 0 => []
  | n + 1 => handlesLoop counts n ++ [counts.getD n Ciph.uninit]

/-- The `abi.encode` branching of `publishResults`: 2, 3 or (else) 4
cleartext values are encoded in order; an out-of-range access reverts. -/
def encodeCleartexts (optionCount : Nat) (clearCounts : List Nat) : Option (List Nat) :=
  if optionCount = 2 then
    match clearCounts[0]?, clearCounts[1]? with
    | some c0, some c1 => some [c0, c1]
    | _, _ => none
  else if optionCount = 3 then
    match clearCounts[0]?, clearCounts[1]?, clearCounts[2]? with
    | some c0, some c1, some c2 => some [c0, c1, c2]
    | _, _, _ => none
  else
    match clearCounts[0]?, clearCounts[1]?, clearCounts[2]?, clearCounts[3]? with
    | some c0, some c1, some c2, some c3 => some [c0, c1, c2, c3]
    | _, _, _, _ => none

/-- The write loop of `publishResults`, iterations `0, …, n-1`:
`poll.publicCounts[i] = clearCounts[i]`. -/
def storeCountsLoop (clearCounts : List Nat) : Nat → List Nat → List Nat
  | 0, pc => pc
  | n + 1, pc => (storeCountsLoop clearCounts n pc).set n (clearCounts.getD n 0)

/-- The state transformation of a successful `publishResults`. -/
def publishEffect (s : State) (pollId : Nat) (clearCounts : List Nat) : State :=
  let poll := s.polls pollId
  let poll := { poll with publicCounts := storeCountsLoop clearCounts poll.optionCount poll.publicCounts }
  let poll := { poll with resultsPublished := true }
  let s1 := setPoll s pollId poll
  { s1 with events := s1.events ++ [Event.ResultsPublished pollId] }

/-- `publishResults(pollId, clearCounts, decryptionProof)` with
signature-checking oracle `chk`. -/
def publishResults (chk : SigChecker) (s : State) (pollId : Nat)
    (clearCounts : List Nat) (decryptionProof : Nat) :
    Except (Err × State) State :=
  if ¬ (pollId < s.pollCount) then .error (.NotFound, s)
  else if ¬ (s.polls pollId).publicReady then .error (.NotReady, s)
  else if (s.polls pollId).resultsPublished then .error (.AlreadyPublished, s)
  else if ¬ (clearCounts.length = (s.polls pollId).optionCount) then
    .error (.LengthMismatch, s)
  else
    let handles := handlesLoop (s.polls pollId).encryptedCounts (s.polls pollId).optionCount
    match encodeCleartexts (s.polls pollId).optionCount clearCounts with
    | none => .error (.OutOfBounds, s)
    | some cleartexts =>
      if ¬ (chk handles cleartexts decryptionProof = true) then
        .error (.InvalidProof, s)
      else
        .ok (publishEffect s pollId clearCounts)

/-- One external transaction. -/
inductive Op : Type where
  | create : Nat → String → List String → Nat → Nat → Op
  | castVote : Nat → Nat → Nat → Nat → Nat → Op
  | close : Nat → Nat → Op
  | publish : Nat → List Nat → Nat → Op

/-- Transaction semantics: a reverted transaction leaves the state as it
was (the error-carried state; atomicity of failure is proved below). -/
def step (chk : SigChecker) (s : State) : Op → State
  | .create sender title options startTime endTime =>
    match createPoll s sender title options startTime endTime with
    | .ok (s2, _) => s2
    | .error (_, s2) => s2
  | .castVote sender now pollId encryptedChoice inputProof =>
    match vote s sender now pollId encryptedChoice inputProof with
    | .ok s2 => s2
    | .error (_, s2) => s2
  | .close now pollId =>
    match endPoll s now pollId with
    | .ok s2 => s2
    | .error (_, s2) => s2
  | .publish pollId clearCounts decryptionProof =>
    match publishResults chk s pollId clearCounts decryptionProof with
    | .ok s2 => s2
    | .error (_, s2) => s2

/-- States reachable from deployment by any sequence of transactions. -/
inductive Reachable (chk : SigChecker) : State → Prop where
  | init : Reachable chk initState
  | next : ∀ s op, Reachable chk s → Reachable chk (step chk s op)

/-! ### Loop characterizations -/

theorem voteLoop_length (choice : Ciph) (n : Nat) (cs : List Ciph) :
    (voteLoop choice n cs).length = cs.length := by
  induction n with
  | zero => rfl
  | succ n ih => simp [voteLoop, List.length_set, ih]

theorem voteLoop_getElem_ge (choice : Ciph) {n i : Nat} (cs : List Ciph) (h : n ≤ i) :
    (voteLoop choice n cs)[i]? = cs[i]? := by
  induction n with
  | zero => rfl
  | succ n ih =>
    have hni : n ≠ i := by omega
    simp only [voteLoop, List.getElem?_set_ne hni]
    exact ih (by omega)

theorem voteLoop_getElem_lt (choice : Ciph) {n i : Nat} (cs : List Ciph) (h : i < n) :
    (voteLoop choice n cs)[i]? =
      (cs[i]?).map (fun x => Ciph.add x (voteIncrement choice i)) := by
  induction n with
  | zero => omega
  | succ n ih =>
    by_cases hin : i < n
    · have hni : n ≠ i := by omega
      simp only [voteLoop, List.getElem?_set_ne hni]
      exact ih hin
    · have hin2 : i = n := by omega
      subst hin2
      simp only [voteLoop]
      by_cases hlen : i < cs.length
      · have hl2 : i < (voteLoop choice i cs).length := by
          rw [voteLoop_length]; exact hlen
        rw [List.getElem?_set_self hl2]
        rw [List.getD_eq_getElem?_getD, voteLoop_getElem_ge choice cs (Nat.le_refl i)]
        rw [List.getElem?_eq_getElem hlen]
        rfl
      · have hl2 : (voteLoop choice i cs).length ≤ i := by
          rw [voteLoop_length]; omega
        rw [List.set_eq_of_length_le hl2]
        rw [voteLoop_getElem_ge choice cs (Nat.le_refl i)]
        rw [List.getElem?_eq_none (show cs.length ≤ i by omega)]
        rfl

theorem initCountsLoop_length (n : Nat) (cs : List Ciph) :
    (initCountsLoop n cs).length = cs.length := by
  induction n with
  | zero => rfl
  | succ n ih => simp [initCountsLoop, List.length_set, ih]

theorem initCountsLoop_getElem_ge {n i : Nat} (cs : List Ciph) (h : n ≤ i) :
    (initCountsLoop n cs)[i]? = cs[i]? := by
  induction n with
  | zero => rfl
  | succ n ih =>
    have hni : n ≠ i := by omega
    simp only [initCountsLoop, List.getElem?_set_ne hni]
    exact ih (by omega)

theorem initCountsLoop_getElem_lt {n i : Nat} (cs : List Ciph) (h : i < n)
    (hlen : i < cs.length) :
    (initCountsLoop n cs)[i]? = some (Ciph.asEuint32 0) := by
  induction n with
  | zero => omega
  | succ n ih =>
    by_cases hin : i < n
    · have hni : n ≠ i := by omega
      simp only [initCountsLoop, List.getElem?_set_ne hni]
      exact ih hin
    · have hin2 : i = n := by omega
      subst hin2
      simp only [initCountsLoop]
      have hl2 : i < (initCountsLoop i cs).length := by
        rw [initCountsLoop_length]; exact hlen
      rw [List.getElem?_set_self hl2]

theorem storeOptions_length (arg : List String) (n : Nat) (st : List String) :
    (storeOptions arg n st).length = st.length := by
  induction n with
  | zero => rfl
  | succ n ih => simp [storeOptions, List.length_set, ih]

theorem markLoop_eq (counts : List Ciph) (n : Nat) (marked : List Ciph) :
    markLoop counts n marked =
      marked ++ (List.range n).map (fun i => counts.getD i Ciph.uninit) := by
  induction n with
  | zero => simp [markLoop]
  | succ n ih => simp [markLoop, ih, List.range_succ]

theorem handlesLoop_eq (counts : List Ciph) (n : Nat) :
    handlesLoop counts n = (List.range n).map (fun i => counts.getD i Ciph.uninit) := by
  induction n with
  | zero => simp [handlesLoop]
  | succ n ih => simp [handlesLoop, ih, List.range_succ]

theorem storeCountsLoop_length (cc : List Nat) (n : Nat) (pc : List Nat) :
    (storeCountsLoop cc n pc).length = pc.length := by
  induction n with
  | zero => rfl
  | succ n ih => simp [storeCountsLoop, List.length_set, ih]

theorem storeCountsLoop_getElem_ge (cc : List Nat) {n i : Nat} (pc : List Nat) (h : n ≤ i) :
    (storeCountsLoop cc n pc)[i]? = pc[i]? := by
  induction n with
  | zero => rfl
  | succ n ih =>
    have hni : n ≠ i := by omega
    simp only [storeCountsLoop, List.getElem?_set_ne hni]
    exact ih (by omega)

theorem storeCountsLoop_getElem_lt (cc : List Nat) {n i : Nat} (pc : List Nat) (h : i < n)
    (hlen : i < pc.length) :
    (storeCountsLoop cc n pc)[i]? = some (cc.getD i 0) := by
  induction n with
  | zero => omega
  | succ n ih =>
    by_cases hin : i < n
    · have hni : n ≠ i := by omega
      simp only [storeCountsLoop, List.getElem?_set_ne hni]
      exact ih hin
    · have hin2 : i = n := by omega
      subst hin2
      simp only [storeCountsLoop]
      have hl2 : i < (storeCountsLoop cc i pc).length := by
        rw [storeCountsLoop_length]; exact hlen
      rw [List.getElem?_set_self hl2]

theorem encodeCleartexts_eq_self {oc : Nat} {cc : List Nat}
    (h2 : 2 ≤ oc) (h4 : oc ≤ 4) (hlen : cc.length = oc) :
    encodeCleartexts oc cc = some cc := by
  subst hlen
  rcases cc with _ | ⟨a, _ | ⟨b, _ | ⟨c, _ | ⟨d, _ | ⟨e, rest⟩⟩⟩⟩⟩
  · simp at h2
  · simp at h2
  · rfl
  · rfl
  · rfl
  · simp [List.length_cons] at h4

/-! ### State observations of the four effects -/

theorem setPoll_polls_self (s : State) (pid : Nat) (p : Poll) :
    (setPoll s pid p).polls pid = p := by
  simp [setPoll]

theorem setPoll_polls_ne (s : State) {pid j : Nat} (p : Poll) (h : j ≠ pid) :
    (setPoll s pid p).polls j = s.polls j := by
  simp [setPoll, h]

theorem createPollEffect_pollCount (s : State) (sender : Nat) (title : String)
    (options : List String) (st et : Nat) :
    (createPollEffect s sender title options st et).pollCount = s.pollCount + 1 := rfl

theorem createPollEffect_polls_self (s : State) (sender : Nat) (title : String)
    (options : List String) (st et : Nat) :
    (createPollEffect s sender title options st et).polls s.pollCount =
      { s.polls s.pollCount with
          title := title
          optionCount := options.length
          startTime := st
          endTime := et
          creator := sender
          options := storeOptions options options.length (s.polls s.pollCount).options
          encryptedCounts := initCountsLoop 4 (s.polls s.pollCount).encryptedCounts } := by
  simp [createPollEffect, setPoll]

theorem createPollEffect_polls_ne (s : State) (sender : Nat) (title : String)
    (options : List String) (st et : Nat) {pid : Nat} (h : pid ≠ s.pollCount) :
    (createPollEffect s sender title options st et).polls pid = s.polls pid := by
  simp [createPollEffect, setPoll, h]

theorem createPollEffect_hasVoted (s : State) (sender : Nat) (title : String)
    (options : List String) (st et : Nat) :
    (createPollEffect s sender title options st et).hasVoted = s.hasVoted := rfl

theorem createPollEffect_marked (s : State) (sender : Nat) (title : String)
    (options : List String) (st et : Nat) :
    (createPollEffect s sender title options st et).marked = s.marked := rfl

theorem createPollEffect_events (s : State) (sender : Nat) (title : String)
    (options : List String) (st et : Nat) :
    (createPollEffect s sender title options st et).events =
      s.events ++ [Event.PollCreated s.pollCount sender title options.length st et] := rfl

theorem voteEffect_polls_self (s : State) (sender : Nat) (pollId ec ip : Nat) :
    (voteEffect s sender pollId ec ip).polls pollId =
      { s.polls pollId with
          encryptedCounts :=
            voteLoop (Ciph.fromExternal ec ip) (s.polls pollId).optionCount
              (s.polls pollId).encryptedCounts } := by
  simp [voteEffect, setPoll]

theorem voteEffect_polls_ne (s : State) (sender : Nat) (pollId ec ip : Nat)
    {pid : Nat} (h : pid ≠ pollId) :
    (voteEffect s sender pollId ec ip).polls pid = s.polls pid := by
  simp [voteEffect, setPoll, h]

theorem voteEffect_pollCount (s : State) (sender : Nat) (pollId ec ip : Nat) :
    (voteEffect s sender pollId ec ip).pollCount = s.pollCount := rfl

theorem voteEffect_hasVoted (s : State) (sender : Nat) (pollId ec ip : Nat)
    (p : Nat) (a : Nat) :
    (voteEffect s sender pollId ec ip).hasVoted p a =
      if p = pollId ∧ a = sender then true else s.hasVoted p a := rfl

theorem voteEffect_marked (s : State) (sender : Nat) (pollId ec ip : Nat) :
    (voteEffect s sender pollId ec ip).marked = s.marked := rfl

theorem voteEffect_events (s : State) (sender : Nat) (pollId ec ip : Nat) :
    (voteEffect s sender pollId ec ip).events =
      s.events ++ [Event.VoteCast pollId sender] := rfl

theorem endPollEffect_polls_self (s : State) (pollId : Nat) :
    (endPollEffect s pollId).polls pollId =
      { s.polls pollId with ended := true, publicReady := true } := by
  simp [endPollEffect, setPoll]

theorem endPollEffect_polls_ne (s : State) (pollId : Nat) {pid : Nat} (h : pid ≠ pollId) :
    (endPollEffect s pollId).polls pid = s.polls pid := by
  simp [endPollEffect, setPoll, h]

theorem endPollEffect_pollCount (s : State) (pollId : Nat) :
    (endPollEffect s pollId).pollCount = s.pollCount := rfl

theorem endPollEffect_hasVoted (s : State) (pollId : Nat) :
    (endPollEffect s pollId).hasVoted = s.hasVoted := rfl

theorem endPollEffect_marked (s : State) (pollId : Nat) :
    (endPollEffect s pollId).marked =
      markLoop (s.polls pollId).encryptedCounts (s.polls pollId).optionCount s.marked := rfl

theorem endPollEffect_events (s : State) (pollId : Nat) :
    (endPollEffect s pollId).events = s.events ++ [Event.PollEnded pollId] := rfl

theorem publishEffect_polls_self (s : State) (pollId : Nat) (clearCounts : List Nat) :
    (publishEffect s pollId clearCounts).polls pollId =
      { s.polls pollId with
          publicCounts :=
            storeCountsLoop clearCounts (s.polls pollId).optionCount
              (s.polls pollId).publicCounts
          resultsPublished := true } := by
  simp [publishEffect, setPoll]

theorem publishEffect_polls_ne (s : State) (pollId : Nat) (clearCounts : List Nat)
    {pid : Nat} (h : pid ≠ pollId) :
    (publishEffect s pollId clearCounts).polls pid = s.polls pid := by
  simp [publishEffect, setPoll, h]

theorem publishEffect_pollCount (s : State) (pollId : Nat) (clearCounts : List Nat) :
    (publishEffect s pollId clearCounts).pollCount = s.pollCount := rfl

theorem publishEffect_hasVoted (s : State) (pollId : Nat) (clearCounts : List Nat) :
    (publishEffect s pollId clearCounts).hasVoted = s.hasVoted := rfl

theorem publishEffect_marked (s : State) (pollId : Nat) (clearCounts : List Nat) :
    (publishEffect s pollId clearCounts).marked = s.marked := rfl

theorem publishEffect_events (s : State) (pollId : Nat) (clearCounts : List Nat) :
    (publishEffect s pollId clearCounts).events =
      s.events ++ [Event.ResultsPublished pollId] := rfl

/-! ### Success and failure inversions for the four operations -/

theorem createPoll_ok_iff {s : State} {sender : Nat} {title : String}
    {options : List String} {st et : Nat} {s2 : State} {pid : Nat} :
    createPoll s sender title options st et = .ok (s2, pid) ↔
      2 ≤ options.length ∧ options.length ≤ 4 ∧ st < et ∧
        s2 = createPollEffect s sender title options st et ∧ pid = s.pollCount := by
  constructor
  · intro h
    unfold createPoll at h
    split_ifs at h with h1 h2
    all_goals simp only [Except.ok.injEq, Prod.mk.injEq, reduceCtorEq] at h
    exact ⟨h1.1, h1.2, h2, h.1.symm, h.2.symm⟩
  · rintro ⟨h2le, h4le, hlt, hs2, hpid⟩
    subst hs2; subst hpid
    unfold createPoll
    rw [if_neg (not_not_intro ⟨h2le, h4le⟩), if_neg (not_not_intro hlt)]

theorem createPoll_error_iff {s : State} {sender : Nat} {title : String}
    {options : List String} {st et : Nat} {e : Err} {s3 : State} :
    createPoll s sender title options st et = .error (e, s3) ↔
      e = .InvalidConfiguration ∧ s3 = s ∧
        (options.length < 2 ∨ 4 < options.length ∨ et ≤ st) := by
  constructor
  · intro h
    unfold createPoll at h
    split_ifs at h with h1 h2
    all_goals simp only [Except.error.injEq, Prod.mk.injEq, reduceCtorEq] at h
    all_goals exact ⟨h.1.symm, h.2.symm, by omega⟩
  · rintro ⟨he, hs3, hbad⟩
    subst he; subst hs3
    unfold createPoll
    by_cases hc : 2 ≤ options.length ∧ options.length ≤ 4
    · rw [if_neg (not_not_intro hc)]
      rw [if_pos (show ¬ (st < et) by omega)]
    · rw [if_pos hc]

theorem vote_ok_iff {s : State} {sender : Nat} {now : Nat}
    {pollId ec ip : Nat} {s2 : State} :
    vote s sender now pollId ec ip = .ok s2 ↔
      pollId < s.pollCount ∧ (s.polls pollId).ended = false ∧
        (s.polls pollId).startTime ≤ now ∧ now < (s.polls pollId).endTime ∧
        s.hasVoted pollId sender = false ∧
        s2 = voteEffect s sender pollId ec ip := by
  constructor
  · intro h
    unfold vote at h
    split_ifs at h with h1 h2 h3 h4 h5
    all_goals simp only [Except.ok.injEq, reduceCtorEq] at h
    exact ⟨h1, Bool.not_eq_true _ |>.mp h2, Nat.not_lt.mp h3, h4,
      Bool.not_eq_true _ |>.mp h5, h.symm⟩
  · rintro ⟨h1, h2, h3, h4, h5, hs2⟩
    subst hs2
    unfold vote
    rw [if_neg (not_not_intro h1),
      if_neg (show ¬ ((s.polls pollId).ended = true) by simp [h2]),
      if_neg (show ¬ (now < (s.polls pollId).startTime) by omega),
      if_neg (not_not_intro h4),
      if_neg (show ¬ (s.hasVoted pollId sender = true) by simp [h5])]

theorem vote_error_state {s : State} {sender : Nat} {now : Nat}
    {pollId ec ip : Nat} {e : Err} {s3 : State}
    (h : vote s sender now pollId ec ip = .error (e, s3)) : s3 = s := by
  unfold vote at h
  split_ifs at h
  all_goals simp only [Except.error.injEq, Prod.mk.injEq, reduceCtorEq] at h
  all_goals exact h.2.symm

theorem createPoll_error_state {s : State} {sender : Nat} {title : String}
    {options : List String} {st et : Nat} {e : Err} {s3 : State}
    (h : createPoll s sender title options st et = .error (e, s3)) : s3 = s :=
  (createPoll_error_iff.mp h).2.1

theorem endPoll_ok_iff {s : State} {now : Nat} {pollId : Nat} {s2 : State} :
    endPoll s now pollId = .ok s2 ↔
      pollId < s.pollCount ∧ (s.polls pollId).ended = false ∧
        (s.polls pollId).endTime ≤ now ∧ s2 = endPollEffect s pollId := by
  constructor
  · intro h
    unfold endPoll at h
    split_ifs at h with h1 h2 h3
    all_goals simp only [Except.ok.injEq, reduceCtorEq] at h
    exact ⟨h1, Bool.not_eq_true _ |>.mp h2, Nat.not_lt.mp h3, h.symm⟩
  · rintro ⟨h1, h2, h3, hs2⟩
    subst hs2
    unfold endPoll
    rw [if_neg (not_not_intro h1),
      if_neg (show ¬ ((s.polls pollId).ended = true) by simp [h2]),
      if_neg (show ¬ (now < (s.polls pollId).endTime) by omega)]

theorem endPoll_error_state {s : State} {now : Nat} {pollId : Nat}
    {e : Err} {s3 : State}
    (h : endPoll s now pollId = .error (e, s3)) : s3 = s := by
  unfold endPoll at h
  split_ifs at h
  all_goals simp only [Except.error.injEq, Prod.mk.injEq, reduceCtorEq] at h
  all_goals exact h.2.symm

theorem publishResults_ok_iff {chk : SigChecker} {s : State} {pollId : Nat}
    {clearCounts : List Nat} {proof : Nat} {s2 : State} :
    publishResults chk s pollId clearCounts proof = .ok s2 ↔
      pollId < s.pollCount ∧ (s.polls pollId).publicReady = true ∧
        (s.polls pollId).resultsPublished = false ∧
        clearCounts.length = (s.polls pollId).optionCount ∧
        (∃ enc, encodeCleartexts (s.polls pollId).optionCount clearCounts = some enc ∧
          chk (handlesLoop (s.polls pollId).encryptedCounts (s.polls pollId).optionCount)
            enc proof = true) ∧
        s2 = publishEffect s pollId clearCounts := by
  constructor
  · intro h
    unfold publishResults at h
    split_ifs at h with h1 h2 h3 h4
    all_goals try simp only [reduceCtorEq] at h
    cases henc : encodeCleartexts (s.polls pollId).optionCount clearCounts with
    | none =>
      rw [henc] at h
      simp only [reduceCtorEq] at h
    | some enc =>
      rw [henc] at h
      simp only [] at h
      split_ifs at h with h5
      all_goals simp only [Except.ok.injEq, reduceCtorEq] at h
      exact ⟨h1, h2, Bool.not_eq_true _ |>.mp h3, h4, ⟨enc, rfl, h5⟩, h.symm⟩
  · rintro ⟨h1, h2, h3, h4, ⟨enc, henc, hchk⟩, hs2⟩
    subst hs2
    unfold publishResults
    rw [if_neg (not_not_intro h1),
      if_neg (show ¬ ¬ ((s.polls pollId).publicReady = true) from not_not_intro h2),
      if_neg (show ¬ ((s.polls pollId).resultsPublished = true) by simp [h3]),
      if_neg (not_not_intro h4)]
    simp only [henc]
    rw [if_neg (not_not_intro hchk)]

theorem publishResults_error_state {chk : SigChecker} {s : State} {pollId : Nat}
    {clearCounts : List Nat} {proof : Nat} {e : Err} {s3 : State}
    (h : publishResults chk s pollId clearCounts proof = .error (e, s3)) : s3 = s := by
  unfold publishResults at h
  split_ifs at h with h1 h2 h3 h4
  all_goals try exact (congrArg Prod.snd (Except.error.inj h)).symm
  cases henc : encodeCleartexts (s.polls pollId).optionCount clearCounts with
  | none =>
    rw [henc] at h
    simp only [Except.error.injEq, Prod.mk.injEq] at h
    exact h.2.symm
  | some enc =>
    rw [henc] at h
    simp only [] at h
    split_ifs at h with h5
    all_goals simp only [Except.error.injEq, Prod.mk.injEq, reduceCtorEq] at h
    exact h.2.symm

/-! ### Reachability invariants -/

/-- Well-formedness of a poll storage slot: the three fixed-size arrays
have length 4 and the logical length never exceeds the capacity. -/
def PollWF (p : Poll) : Prop :=
  p.encryptedCounts.length = 4 ∧ p.publicCounts.length = 4 ∧
    p.options.length = 4 ∧ p.optionCount ≤ 4

/-- The lifecycle-flag invariant of a poll. -/
def FlagInv (p : Poll) : Prop :=
  p.ended = p.publicReady ∧ (p.resultsPublished = true → p.publicReady = true)

/-- The global state invariant maintained by every transaction. -/
def Inv (s : State) : Prop :=
  (∀ pid, PollWF (s.polls pid)) ∧
    (∀ pid, FlagInv (s.polls pid)) ∧
    (∀ pid, pid < s.pollCount → 2 ≤ (s.polls pid).optionCount) ∧
    (∀ pid, s.pollCount ≤ pid → s.polls pid = defaultPoll)

theorem inv_initState : Inv initState := by
  refine ⟨fun pid => ⟨rfl, rfl, rfl, ?_⟩,
    fun pid => ⟨rfl, fun h => by simp [initState, defaultPoll] at h⟩,
    fun pid h => by simp [initState] at h,
    fun pid _ => rfl⟩
  show (0 : Nat) ≤ 4
  omega

theorem inv_createPollEffect {s : State} (hInv : Inv s) (sender : Nat) (title : String)
    {options : List String} (st et : Nat)
    (h2 : 2 ≤ options.length) (h4 : options.length ≤ 4) :
    Inv (createPollEffect s sender title options st et) := by
  obtain ⟨hWF, hFlag, hMin, hDef⟩ := hInv
  refine ⟨?_, ?_, ?_, ?_⟩
  · intro pid
    by_cases hp : pid = s.pollCount
    · subst hp
      rw [createPollEffect_polls_self]
      refine ⟨?_, (hWF s.pollCount).2.1, ?_, h4⟩
      · rw [initCountsLoop_length]
        exact (hWF s.pollCount).1
      · rw [storeOptions_length]
        exact (hWF s.pollCount).2.2.1
    · rw [createPollEffect_polls_ne s sender title options st et hp]
      exact hWF pid
  · intro pid
    by_cases hp : pid = s.pollCount
    · subst hp
      rw [createPollEffect_polls_self]
      exact hFlag s.pollCount
    · rw [createPollEffect_polls_ne s sender title options st et hp]
      exact hFlag pid
  · intro pid hlt
    by_cases hp : pid = s.pollCount
    · subst hp
      rw [createPollEffect_polls_self]
      exact h2
    · rw [createPollEffect_polls_ne s sender title options st et hp]
      rw [createPollEffect_pollCount] at hlt
      exact hMin pid (by omega)
  · intro pid hge
    rw [createPollEffect_pollCount] at hge
    rw [createPollEffect_polls_ne s sender title options st et (by omega)]
    exact hDef pid (by omega)

theorem inv_voteEffect {s : State} (hInv : Inv s) (sender : Nat) {pollId : Nat}
    (ec ip : Nat) (hpid : pollId < s.pollCount) :
    Inv (voteEffect s sender pollId ec ip) := by
  obtain ⟨hWF, hFlag, hMin, hDef⟩ := hInv
  refine ⟨?_, ?_, ?_, ?_⟩
  · intro pid
    by_cases hp : pid = pollId
    · subst hp
      rw [voteEffect_polls_self]
      refine ⟨?_, (hWF pid).2.1, (hWF pid).2.2.1, (hWF pid).2.2.2⟩
      rw [voteLoop_length]
      exact (hWF pid).1
    · rw [voteEffect_polls_ne s sender pollId ec ip hp]
      exact hWF pid
  · intro pid
    by_cases hp : pid = pollId
    · subst hp
      rw [voteEffect_polls_self]
      exact hFlag pid
    · rw [voteEffect_polls_ne s sender pollId ec ip hp]
      exact hFlag pid
  · intro pid hlt
    rw [voteEffect_pollCount] at hlt
    by_cases hp : pid = pollId
    · subst hp
      rw [voteEffect_polls_self]
      exact hMin pid hlt
    · rw [voteEffect_polls_ne s sender pollId ec ip hp]
      exact hMin pid hlt
  · intro pid hge
    rw [voteEffect_pollCount] at hge
    rw [voteEffect_polls_ne s sender pollId ec ip (by omega)]
    exact hDef pid hge

theorem inv_endPollEffect {s : State} (hInv : Inv s) {pollId : Nat}
    (hpid : pollId < s.pollCount) : Inv (endPollEffect s pollId) := by
  obtain ⟨hWF, hFlag, hMin, hDef⟩ := hInv
  refine ⟨?_, ?_, ?_, ?_⟩
  · intro pid
    by_cases hp : pid = pollId
    · subst hp
      rw [endPollEffect_polls_self]
      exact hWF pid
    · rw [endPollEffect_polls_ne s pollId hp]
      exact hWF pid
  · intro pid
    by_cases hp : pid = pollId
    · subst hp
      rw [endPollEffect_polls_self]
      exact ⟨rfl, fun _ => rfl⟩
    · rw [endPollEffect_polls_ne s pollId hp]
      exact hFlag pid
  · intro pid hlt
    rw [endPollEffect_pollCount] at hlt
    by_cases hp : pid = pollId
    · subst hp
      rw [endPollEffect_polls_self]
      exact hMin pid hlt
    · rw [endPollEffect_polls_ne s pollId hp]
      exact hMin pid hlt
  · intro pid hge
    rw [endPollEffect_pollCount] at hge
    rw [endPollEffect_polls_ne s pollId (by omega)]
    exact hDef pid hge

theorem inv_publishEffect {s : State} (hInv : Inv s) {pollId : Nat}
    (clearCounts : List Nat) (hpid : pollId < s.pollCount)
    (hpr : (s.polls pollId).publicReady = true) :
    Inv (publishEffect s pollId clearCounts) := by
  obtain ⟨hWF, hFlag, hMin, hDef⟩ := hInv
  refine ⟨?_, ?_, ?_, ?_⟩
  · intro pid
    by_cases hp : pid = pollId
    · subst hp
      rw [publishEffect_polls_self]
      refine ⟨(hWF pid).1, ?_, (hWF pid).2.2.1, (hWF pid).2.2.2⟩
      rw [storeCountsLoop_length]
      exact (hWF pid).2.1
    · rw [publishEffect_polls_ne s pollId clearCounts hp]
      exact hWF pid
  · intro pid
    by_cases hp : pid = pollId
    · subst hp
      rw [publishEffect_polls_self]
      exact ⟨(hFlag pid).1, fun _ => hpr⟩
    · rw [publishEffect_polls_ne s pollId clearCounts hp]
      exact hFlag pid
  · intro pid hlt
    rw [publishEffect_pollCount] at hlt
    by_cases hp : pid = pollId
    · subst hp
      rw [publishEffect_polls_self]
      exact hMin pid hlt
    · rw [publishEffect_polls_ne s pollId clearCounts hp]
      exact hMin pid hlt
  · intro pid hge
    rw [publishEffect_pollCount] at hge
    rw [publishEffect_polls_ne s pollId clearCounts (by omega)]
    exact hDef pid hge

theorem inv_step (chk : SigChecker) {s : State} (hInv : Inv s) (op : Op) :
    Inv (step chk s op) := by
  cases op with
  | create sender title options st et =>
    simp only [step]
    cases hres : createPoll s sender title options st et with
    | ok p =>
      obtain ⟨s2, pid⟩ := p
      obtain ⟨hA, hB, _, hD, _⟩ := createPoll_ok_iff.mp hres
      rw [hD]
      exact inv_createPollEffect hInv sender title st et hA hB
    | error p =>
      obtain ⟨e, s3⟩ := p
      rw [createPoll_error_state hres]
      exact hInv
  | castVote sender now pollId ec ip =>
    simp only [step]
    cases hres : vote s sender now pollId ec ip with
    | ok s2 =>
      obtain ⟨hA, _, _, _, _, hF⟩ := vote_ok_iff.mp hres
      rw [hF]
      exact inv_voteEffect hInv sender ec ip hA
    | error p =>
      obtain ⟨e, s3⟩ := p
      rw [vote_error_state hres]
      exact hInv
  | close now pollId =>
    simp only [step]
    cases hres : endPoll s now pollId with
    | ok s2 =>
      obtain ⟨hA, _, _, hD⟩ := endPoll_ok_iff.mp hres
      rw [hD]
      exact inv_endPollEffect hInv hA
    | error p =>
      obtain ⟨e, s3⟩ := p
      rw [endPoll_error_state hres]
      exact hInv
  | publish pollId clearCounts decryptionProof =>
    simp only [step]
    cases hres : publishResults chk s pollId clearCounts decryptionProof with
    | ok s2 =>
      obtain ⟨hA, hB, _, _, _, hF⟩ := publishResults_ok_iff.mp hres
      rw [hF]
      exact inv_publishEffect hInv clearCounts hA hB
    | error p =>
      obtain ⟨e, s3⟩ := p
      rw [publishResults_error_state hres]
      exact hInv

theorem reachable_inv {chk : SigChecker} {s : State} (h : Reachable chk s) : Inv s := by
  induction h with
  | init => exact inv_initState
  | next s op hs ih => exact inv_step chk ih op

/-! ### Case analyses of one transaction step -/

theorem step_create_cases (chk : SigChecker) (s : State) (sender : Nat) (title : String)
    (options : List String) (st et : Nat) :
    step chk s (.create sender title options st et) = s ∨
      (2 ≤ options.length ∧ options.length ≤ 4 ∧ st < et ∧
        step chk s (.create sender title options st et) =
          createPollEffect s sender title options st et) := by
  simp only [step]
  cases hres : createPoll s sender title options st et with
  | ok p =>
    obtain ⟨s2, pid⟩ := p
    obtain ⟨hA, hB, hC, hD, _⟩ := createPoll_ok_iff.mp hres
    exact Or.inr ⟨hA, hB, hC, hD⟩
  | error p =>
    obtain ⟨e, s3⟩ := p
    exact Or.inl (createPoll_error_state hres)

theorem step_castVote_cases (chk : SigChecker) (s : State)
    (sender now pollId ec ip : Nat) :
    step chk s (.castVote sender now pollId ec ip) = s ∨
      (pollId < s.pollCount ∧ (s.polls pollId).ended = false ∧
        (s.polls pollId).startTime ≤ now ∧ now < (s.polls pollId).endTime ∧
        s.hasVoted pollId sender = false ∧
        step chk s (.castVote sender now pollId ec ip) =
          voteEffect s sender pollId ec ip) := by
  simp only [step]
  cases hres : vote s sender now pollId ec ip with
  | ok s2 =>
    obtain ⟨hA, hB, hC, hD, hE, hF⟩ := vote_ok_iff.mp hres
    exact Or.inr ⟨hA, hB, hC, hD, hE, hF⟩
  | error p =>
    obtain ⟨e, s3⟩ := p
    exact Or.inl (vote_error_state hres)

theorem step_close_cases (chk : SigChecker) (s : State) (now pollId : Nat) :
    step chk s (.close now pollId) = s ∨
      (pollId < s.pollCount ∧ (s.polls pollId).ended = false ∧
        (s.polls pollId).endTime ≤ now ∧
        step chk s (.close now pollId) = endPollEffect s pollId) := by
  simp only [step]
  cases hres : endPoll s now pollId with
  | ok s2 =>
    obtain ⟨hA, hB, hC, hD⟩ := endPoll_ok_iff.mp hres
    exact Or.inr ⟨hA, hB, hC, hD⟩
  | error p =>
    obtain ⟨e, s3⟩ := p
    exact Or.inl (endPoll_error_state hres)

theorem step_publish_cases (chk : SigChecker) (s : State)
    (pollId : Nat) (clearCounts : List Nat) (decryptionProof : Nat) :
    step chk s (.publish pollId clearCounts decryptionProof) = s ∨
      (pollId < s.pollCount ∧ (s.polls pollId).publicReady = true ∧
        (s.polls pollId).resultsPublished = false ∧
        step chk s (.publish pollId clearCounts decryptionProof) =
          publishEffect s pollId clearCounts) := by
  simp only [step]
  cases hres : publishResults chk s pollId clearCounts decryptionProof with
  | ok s2 =>
    obtain ⟨hA, hB, hC, _, _, hF⟩ := publishResults_ok_iff.mp hres
    exact Or.inr ⟨hA, hB, hC, hF⟩
  | error p =>
    obtain ⟨e, s3⟩ := p
    exact Or.inl (publishResults_error_state hres)

/-! ### Monotonicity helpers -/

theorem step_flags_mono (chk : SigChecker) (s : State) (op : Op) (pid : Nat) :
    ((s.polls pid).ended = true → ((step chk s op).polls pid).ended = true) ∧
      ((s.polls pid).publicReady = true →
        ((step chk s op).polls pid).publicReady = true) ∧
      ((s.polls pid).resultsPublished = true →
        ((step chk s op).polls pid).resultsPublished = true) := by
  cases op with
  | create sender title options st et =>
    rcases step_create_cases chk s sender title options st et with h | ⟨_, _, _, h⟩
    · rw [h]; exact ⟨id, id, id⟩
    · rw [h]
      by_cases hp : pid = s.pollCount
      · subst hp
        rw [createPollEffect_polls_self]
        exact ⟨id, id, id⟩
      · rw [createPollEffect_polls_ne s sender title options st et hp]
        exact ⟨id, id, id⟩
  | castVote sender now pollId ec ip =>
    rcases step_castVote_cases chk s sender now pollId ec ip with h | ⟨_, _, _, _, _, h⟩
    · rw [h]; exact ⟨id, id, id⟩
    · rw [h]
      by_cases hp : pid = pollId
      · subst hp
        rw [voteEffect_polls_self]
        exact ⟨id, id, id⟩
      · rw [voteEffect_polls_ne s sender pollId ec ip hp]
        exact ⟨id, id, id⟩
  | close now pollId =>
    rcases step_close_cases chk s now pollId with h | ⟨_, _, _, h⟩
    · rw [h]; exact ⟨id, id, id⟩
    · rw [h]
      by_cases hp : pid = pollId
      · subst hp
        rw [endPollEffect_polls_self]
        exact ⟨fun _ => rfl, fun _ => rfl, id⟩
      · rw [endPollEffect_polls_ne s pollId hp]
        exact ⟨id, id, id⟩
  | publish pollId clearCounts decryptionProof =>
    rcases step_publish_cases chk s pollId clearCounts decryptionProof with
      h | ⟨_, _, _, h⟩
    · rw [h]; exact ⟨id, id, id⟩
    · rw [h]
      by_cases hp : pid = pollId
      · subst hp
        rw [publishEffect_polls_self]
        exact ⟨id, id, fun _ => rfl⟩
      · rw [publishEffect_polls_ne s pollId clearCounts hp]
        exact ⟨id, id, id⟩

theorem step_marked_mono (chk : SigChecker) (s : State) (op : Op) :
    ∃ tail, (step chk s op).marked = s.marked ++ tail := by
  cases op with
  | create sender title options st et =>
    rcases step_create_cases chk s sender title options st et with h | ⟨_, _, _, h⟩
    · exact ⟨[], by rw [h, List.append_nil]⟩
    · exact ⟨[], by rw [h, createPollEffect_marked, List.append_nil]⟩
  | castVote sender now pollId ec ip =>
    rcases step_castVote_cases chk s sender now pollId ec ip with h | ⟨_, _, _, _, _, h⟩
    · exact ⟨[], by rw [h, List.append_nil]⟩
    · exact ⟨[], by rw [h, voteEffect_marked, List.append_nil]⟩
  | close now pollId =>
    rcases step_close_cases chk s now pollId with h | ⟨_, _, _, h⟩
    · exact ⟨[], by rw [h, List.append_nil]⟩
    · refine ⟨(List.range (s.polls pollId).optionCount).map
        (fun i => (s.polls pollId).encryptedCounts.getD i Ciph.uninit), ?_⟩
      rw [h, endPollEffect_marked, markLoop_eq]
  | publish pollId clearCounts decryptionProof =>
    rcases step_publish_cases chk s pollId clearCounts decryptionProof with
      h | ⟨_, _, _, h⟩
    · exact ⟨[], by rw [h, List.append_nil]⟩
    · exact ⟨[], by rw [h, publishEffect_marked, List.append_nil]⟩

/-! ### A concrete sample run, used to instantiate the theorems below -/

/-- A signature checker that accepts everything. -/
def chkTrue : SigChecker := fun _ _ _ => true

/-- State after creating poll 0 ("T", options A/B, window [10, 20)). -/
def sampleS1 : State := createPollEffect initState 7 "T" ["A", "B"] 10 20

/-- State after voter 5 votes on poll 0 at time 15. -/
def sampleS2 : State := voteEffect sampleS1 5 0 100 200

/-- State after poll 0 is ended at time 25. -/
def sampleS3 : State := endPollEffect sampleS2 0

/-- State after results [1, 0] are published for poll 0. -/
def sampleS4 : State := publishEffect sampleS3 0 [1, 0]

theorem sampleS1_reachable (chk : SigChecker) : Reachable chk sampleS1 :=
  Reachable.next initState (Op.create 7 "T" ["A", "B"] 10 20) Reachable.init

theorem sampleS2_reachable (chk : SigChecker) : Reachable chk sampleS2 :=
  Reachable.next sampleS1 (Op.castVote 5 15 0 100 200) (sampleS1_reachable chk)

theorem sampleS3_reachable (chk : SigChecker) : Reachable chk sampleS3 :=
  Reachable.next sampleS2 (Op.close 25 0) (sampleS2_reachable chk)

/-! ### Claim theorems -/

/-- C1: on every successful `vote(pollId, encryptedChoice, inputProof)` on a
poll with `optionCount = n`, for every option slot `i < n` the new
`encryptedTally[i]` equals `add(old encryptedTally[i], select(eq(ciphertext,
encrypt(i)), 1, 0))`, where `ciphertext` is the decoded external input; the
compare-and-select-add is evaluated for every slot `i < n` on every vote,
and slots with index `≥ n` are never modified by any vote. -/
theorem vote_compare_select_add {s s2 : State} {sender now pollId ec ip : Nat}
    (hok : vote s sender now pollId ec ip = .ok s2) :
    ∀ i : Nat,
      (i < (s.polls pollId).optionCount →
        (s2.polls pollId).encryptedCounts[i]? =
          ((s.polls pollId).encryptedCounts[i]?).map
            (fun old => Ciph.add old
              (Ciph.select (EBool.eq (Ciph.fromExternal ec ip) (Ciph.asEuint32 i))
                (Ciph.asEuint32 1) (Ciph.asEuint32 0)))) ∧
      ((s.polls pollId).optionCount ≤ i →
        (s2.polls pollId).encryptedCounts[i]? =
          (s.polls pollId).encryptedCounts[i]?) := by
  obtain ⟨_, _, _, _, _, hs2⟩ := vote_ok_iff.mp hok
  subst hs2
  intro i
  rw [voteEffect_polls_self]
  constructor
  · intro hi
    exact voteLoop_getElem_lt (Ciph.fromExternal ec ip) _ hi
  · intro hi
    exact voteLoop_getElem_ge (Ciph.fromExternal ec ip) _ hi

/-- Witness: the compare-and-select-add theorem applied to a concrete vote
on the sample poll (slot 0 is updated, slot 2 is untouched). -/
theorem vote_compare_select_add_witness :
    vote sampleS1 5 15 0 100 200 = .ok sampleS2 ∧
      (0 < (sampleS1.polls 0).optionCount ∧
        (sampleS2.polls 0).encryptedCounts[0]? =
          ((sampleS1.polls 0).encryptedCounts[0]?).map
            (fun old => Ciph.add old
              (Ciph.select (EBool.eq (Ciph.fromExternal 100 200) (Ciph.asEuint32 0))
                (Ciph.asEuint32 1) (Ciph.asEuint32 0)))) ∧
      ((sampleS1.polls 0).optionCount ≤ 2 ∧
        (sampleS2.polls 0).encryptedCounts[2]? =
          (sampleS1.polls 0).encryptedCounts[2]?) :=
  ⟨rfl,
    ⟨by decide, (@vote_compare_select_add sampleS1 sampleS2 5 15 0 100 200 rfl 0).1 (by decide)⟩,
    ⟨by decide, (@vote_compare_select_add sampleS1 sampleS2 5 15 0 100 200 rfl 2).2 (by decide)⟩⟩

/-- C2: `publishResults` binds the claimed cleartexts to this specific
poll's sealed ciphertexts.  On success the proof oracle has authenticated
exactly the handles of the first `optionCount` encrypted tally slots of the
given poll, in slot order, against the canonical encoding — the ordered
list of exactly the `optionCount` cleartext values; when the oracle rejects
this (handles, encoding) pair while every earlier precondition holds, the
call fails with `InvalidProof` and the state is unchanged (all-or-nothing). -/
theorem publishResults_binds_poll {chk : SigChecker} {s : State}
    {pollId proofArg : Nat} {clearCounts : List Nat}
    (hR : Reachable chk s) (hpid : pollId < s.pollCount) :
    (∀ s2, publishResults chk s pollId clearCounts proofArg = .ok s2 →
      clearCounts.length = (s.polls pollId).optionCount ∧
      encodeCleartexts (s.polls pollId).optionCount clearCounts = some clearCounts ∧
      chk ((List.range (s.polls pollId).optionCount).map
            (fun i => (s.polls pollId).encryptedCounts.getD i Ciph.uninit))
          clearCounts proofArg = true) ∧
    ((s.polls pollId).publicReady = true →
      (s.polls pollId).resultsPublished = false →
      clearCounts.length = (s.polls pollId).optionCount →
      chk ((List.range (s.polls pollId).optionCount).map
            (fun i => (s.polls pollId).encryptedCounts.getD i Ciph.uninit))
          clearCounts proofArg = false →
      publishResults chk s pollId clearCounts proofArg = .error (.InvalidProof, s)) := by
  obtain ⟨hWF, hFlag, hMin, hDef⟩ := reachable_inv hR
  have h2le : 2 ≤ (s.polls pollId).optionCount := hMin pollId hpid
  have h4ge : (s.polls pollId).optionCount ≤ 4 := (hWF pollId).2.2.2
  constructor
  · intro s2 hok
    obtain ⟨_, _, _, hlen, ⟨enc, henc, hchk⟩, _⟩ := publishResults_ok_iff.mp hok
    have hself : encodeCleartexts (s.polls pollId).optionCount clearCounts =
        some clearCounts := encodeCleartexts_eq_self h2le h4ge hlen
    have henc2 : clearCounts = enc := Option.some.inj (hself.symm.trans henc)
    subst henc2
    refine ⟨hlen, hself, ?_⟩
    rw [← handlesLoop_eq]
    exact hchk
  · intro hpr hnp hlen hfalse
    have hh : chk (handlesLoop (s.polls pollId).encryptedCounts
        (s.polls pollId).optionCount) clearCounts proofArg = false := by
      rw [handlesLoop_eq]
      exact hfalse
    unfold publishResults
    rw [if_neg (not_not_intro hpid),
      if_neg (show ¬ ¬ ((s.polls pollId).publicReady = true) from not_not_intro hpr),
      if_neg (show ¬ ((s.polls pollId).resultsPublished = true) by simp [hnp]),
      if_neg (not_not_intro hlen)]
    simp only [encodeCleartexts_eq_self h2le h4ge hlen]
    rw [if_pos (show ¬ (chk (handlesLoop (s.polls pollId).encryptedCounts
      (s.polls pollId).optionCount) clearCounts proofArg = true) by simp [hh])]

/-- Witness: the publish-binding theorem applied to the sample run — the
published counts [1, 0] are authenticated against the two tally handles of
poll 0 and encode to exactly themselves. -/
theorem publishResults_binds_poll_witness :
    (0 < sampleS3.pollCount ∧
      publishResults chkTrue sampleS3 0 [1, 0] 0 = .ok sampleS4) ∧
      encodeCleartexts (sampleS3.polls 0).optionCount [1, 0] = some [1, 0] ∧
      chkTrue ((List.range (sampleS3.polls 0).optionCount).map
          (fun i => (sampleS3.polls 0).encryptedCounts.getD i Ciph.uninit))
        [1, 0] 0 = true :=
  ⟨⟨by decide, rfl⟩,
    ((@publishResults_binds_poll chkTrue sampleS3 0 0 [1, 0]
      (sampleS3_reachable chkTrue) (by decide)).1 sampleS4 rfl).2⟩

/-- C3: `vote` checks its preconditions in order, each a distinct failure:
unassigned poll id fails `NotFound`; an ended poll fails `PollClosed`; a
time before `startTime` fails `NotStarted`; a time at or past `endTime`
fails `PollExpired` even if the poll was never explicitly closed; a voter
holding a receipt fails `DuplicateVote` regardless of the resubmitted
ballot; the vote succeeds only when all preconditions hold, and on success
both the updated tally and the (pollId, voter) receipt are recorded. -/
theorem vote_precondition_order {s : State} {sender now pollId ec ip : Nat} :
    (¬ pollId < s.pollCount →
      vote s sender now pollId ec ip = .error (.NotFound, s)) ∧
    (pollId < s.pollCount → (s.polls pollId).ended = true →
      vote s sender now pollId ec ip = .error (.PollClosed, s)) ∧
    (pollId < s.pollCount → (s.polls pollId).ended = false →
      now < (s.polls pollId).startTime →
      vote s sender now pollId ec ip = .error (.NotStarted, s)) ∧
    (pollId < s.pollCount → (s.polls pollId).ended = false →
      (s.polls pollId).startTime ≤ now → (s.polls pollId).endTime ≤ now →
      vote s sender now pollId ec ip = .error (.PollExpired, s)) ∧
    (pollId < s.pollCount → (s.polls pollId).ended = false →
      (s.polls pollId).startTime ≤ now → now < (s.polls pollId).endTime →
      s.hasVoted pollId sender = true →
      vote s sender now pollId ec ip = .error (.DuplicateVote, s)) ∧
    (∀ s2, vote s sender now pollId ec ip = .ok s2 →
      (pollId < s.pollCount ∧ (s.polls pollId).ended = false ∧
        (s.polls pollId).startTime ≤ now ∧ now < (s.polls pollId).endTime ∧
        s.hasVoted pollId sender = false) ∧
      s2.hasVoted pollId sender = true ∧
      s2.polls pollId =
        { s.polls pollId with
            encryptedCounts := voteLoop (Ciph.fromExternal ec ip)
              (s.polls pollId).optionCount (s.polls pollId).encryptedCounts }) := by
  refine ⟨?_, ?_, ?_, ?_, ?_, ?_⟩
  · intro h1
    unfold vote
    rw [if_pos h1]
  · intro h1 h2
    unfold vote
    rw [if_neg (not_not_intro h1), if_pos h2]
  · intro h1 h2 h3
    unfold vote
    rw [if_neg (not_not_intro h1),
      if_neg (show ¬ ((s.polls pollId).ended = true) by simp [h2]),
      if_pos h3]
  · intro h1 h2 h3 h4
    unfold vote
    rw [if_neg (not_not_intro h1),
      if_neg (show ¬ ((s.polls pollId).ended = true) by simp [h2]),
      if_neg (show ¬ (now < (s.polls pollId).startTime) by omega),
      if_pos (show ¬ (now < (s.polls pollId).endTime) by omega)]
  · intro h1 h2 h3 h4 h5
    unfold vote
    rw [if_neg (not_not_intro h1),
      if_neg (show ¬ ((s.polls pollId).ended = true) by simp [h2]),
      if_neg (show ¬ (now < (s.polls pollId).startTime) by omega),
      if_neg (not_not_intro h4),
      if_pos h5]
  · intro s2 hok
    obtain ⟨h1, h2, h3, h4, h5, hs2⟩ := vote_ok_iff.mp hok
    subst hs2
    refine ⟨⟨h1, h2, h3, h4, h5⟩, ?_, voteEffect_polls_self s sender pollId ec ip⟩
    rw [voteEffect_hasVoted]
    simp

/-- Witness: voter 5 re-voting on the sample poll fails `DuplicateVote`
even with the identical ballot, and a fresh voter at time 25 (past the
window) fails `PollExpired`. -/
theorem vote_precondition_order_witness :
    vote sampleS2 5 16 0 100 200 = .error (.DuplicateVote, sampleS2) ∧
      vote sampleS2 9 25 0 100 200 = .error (.PollExpired, sampleS2) :=
  ⟨(@vote_precondition_order sampleS2 5 16 0 100 200).2.2.2.2.1
      (by decide) (by decide) (by decide) (by decide) (by decide),
    (@vote_precondition_order sampleS2 9 25 0 100 200).2.2.2.1
      (by decide) (by decide) (by decide) (by decide)⟩

/-- C4: `publishResults` fails with `NotReady` when `publicReady` is false,
with `AlreadyPublished` when results were already published, and with
`LengthMismatch` when the cleartext count differs from `optionCount`
regardless of proof validity (for every checker, before any proof check);
on success it stores the cleartexts into the public tally slots
`[0, optionCount)`, sets `resultsPublished`, and any second call on the
same poll fails `AlreadyPublished` leaving the state unchanged. -/
theorem publishResults_lifecycle {chk : SigChecker} {s : State}
    {pollId proofArg : Nat} {clearCounts : List Nat} (hR : Reachable chk s) :
    (pollId < s.pollCount → (s.polls pollId).publicReady = false →
      publishResults chk s pollId clearCounts proofArg = .error (.NotReady, s)) ∧
    (pollId < s.pollCount → (s.polls pollId).publicReady = true →
      (s.polls pollId).resultsPublished = true →
      publishResults chk s pollId clearCounts proofArg =
        .error (.AlreadyPublished, s)) ∧
    (∀ chk2, pollId < s.pollCount → (s.polls pollId).publicReady = true →
      (s.polls pollId).resultsPublished = false →
      clearCounts.length ≠ (s.polls pollId).optionCount →
      publishResults chk2 s pollId clearCounts proofArg =
        .error (.LengthMismatch, s)) ∧
    (∀ s2, publishResults chk s pollId clearCounts proofArg = .ok s2 →
      (∀ i, i < (s.polls pollId).optionCount →
        (s2.polls pollId).publicCounts[i]? = some (clearCounts.getD i 0)) ∧
      (s2.polls pollId).resultsPublished = true ∧
      (∀ chk2 clearCounts2 proof2,
        publishResults chk2 s2 pollId clearCounts2 proof2 =
          .error (.AlreadyPublished, s2))) := by
  obtain ⟨hWF, hFlag, hMin, hDef⟩ := reachable_inv hR
  refine ⟨?_, ?_, ?_, ?_⟩
  · intro h1 h2
    unfold publishResults
    rw [if_neg (not_not_intro h1),
      if_pos (show ¬ ((s.polls pollId).publicReady = true) by simp [h2])]
  · intro h1 h2 h3
    unfold publishResults
    rw [if_neg (not_not_intro h1), if_neg (not_not_intro h2), if_pos h3]
  · intro chk2 h1 h2 h3 h4
    unfold publishResults
    rw [if_neg (not_not_intro h1), if_neg (not_not_intro h2),
      if_neg (show ¬ ((s.polls pollId).resultsPublished = true) by simp [h3]),
      if_pos h4]
  · intro s2 hok
    obtain ⟨h1, h2, h3, hlen, _, hs2⟩ := publishResults_ok_iff.mp hok
    subst hs2
    have hl4 := (hWF pollId).2.1
    have ho4 := (hWF pollId).2.2.2
    refine ⟨?_, ?_, ?_⟩
    · intro i hi
      rw [publishEffect_polls_self]
      exact storeCountsLoop_getElem_lt clearCounts _ hi (by omega)
    · rw [publishEffect_polls_self]
    · intro chk2 cc2 pf2
      unfold publishResults
      rw [if_neg (not_not_intro
          (show pollId < (publishEffect s pollId clearCounts).pollCount by
            rw [publishEffect_pollCount]; exact h1)),
        if_neg (not_not_intro
          (show ((publishEffect s pollId clearCounts).polls pollId).publicReady = true by
            rw [publishEffect_polls_self]; exact h2)),
        if_pos
          (show ((publishEffect s pollId clearCounts).polls pollId).resultsPublished = true by
            rw [publishEffect_polls_self])]

/-- Witness: on the sample run, publishing [1, 0] succeeds and stores the
counts, a second publish fails `AlreadyPublished` with the state unchanged,
and a wrong-length cleartext list fails `LengthMismatch`. -/
theorem publishResults_lifecycle_witness :
    publishResults chkTrue sampleS3 0 [1, 0] 0 = .ok sampleS4 ∧
      (sampleS4.polls 0).resultsPublished = true ∧
      publishResults chkTrue sampleS4 0 [1, 0] 0 =
        .error (.AlreadyPublished, sampleS4) ∧
      publishResults chkTrue sampleS3 0 [1, 0, 0] 0 =
        .error (.LengthMismatch, sampleS3) :=
  ⟨rfl,
    ((@publishResults_lifecycle chkTrue sampleS3 0 0 [1, 0]
        (sampleS3_reachable chkTrue)).2.2.2 sampleS4 rfl).2.1,
    ((@publishResults_lifecycle chkTrue sampleS3 0 0 [1, 0]
        (sampleS3_reachable chkTrue)).2.2.2 sampleS4 rfl).2.2 chkTrue [1, 0] 0,
    (@publishResults_lifecycle chkTrue sampleS3 0 0 [1, 0, 0]
        (sampleS3_reachable chkTrue)).2.2.1 chkTrue
      (by decide) (by decide) (by decide) (by decide)⟩

/-- C5: `endPoll` fails `NotFound` for an unassigned poll id,
`AlreadyEnded` if the ended flag is already set, and `StillActive` before
`endTime`; on success it sets `ended = true` and `publicReady = true` in
the same atomic transition (no intermediate state is ever observable) and
appends exactly the handles of the encrypted tally slots `[0, optionCount)`
of this poll, in slot order, to the publicly-decryptable set — slots
`≥ optionCount` are not marked — and no transaction ever removes a marked
handle (irreversibility). -/
theorem endPoll_seals_poll {chk : SigChecker} {s : State} {now pollId : Nat} :
    (¬ pollId < s.pollCount → endPoll s now pollId = .error (.NotFound, s)) ∧
    (pollId < s.pollCount → (s.polls pollId).ended = true →
      endPoll s now pollId = .error (.AlreadyEnded, s)) ∧
    (pollId < s.pollCount → (s.polls pollId).ended = false →
      now < (s.polls pollId).endTime →
      endPoll s now pollId = .error (.StillActive, s)) ∧
    (∀ s2, endPoll s now pollId = .ok s2 →
      (s2.polls pollId).ended = true ∧ (s2.polls pollId).publicReady = true ∧
      s2.marked = s.marked ++
        (List.range (s.polls pollId).optionCount).map
          (fun i => (s.polls pollId).encryptedCounts.getD i Ciph.uninit)) ∧
    (∀ s3 op, ∃ tail, (step chk s3 op).marked = s3.marked ++ tail) := by
  refine ⟨?_, ?_, ?_, ?_, fun s3 op => step_marked_mono chk s3 op⟩
  · intro h1
    unfold endPoll
    rw [if_pos h1]
  · intro h1 h2
    unfold endPoll
    rw [if_neg (not_not_intro h1), if_pos h2]
  · intro h1 h2 h3
    unfold endPoll
    rw [if_neg (not_not_intro h1),
      if_neg (show ¬ ((s.polls pollId).ended = true) by simp [h2]),
      if_pos h3]
  · intro s2 hok
    obtain ⟨h1, h2, h3, hs2⟩ := endPoll_ok_iff.mp hok
    subst hs2
    refine ⟨?_, ?_, ?_⟩
    · rw [endPollEffect_polls_self]
    · rw [endPollEffect_polls_self]
    · rw [endPollEffect_marked, markLoop_eq]

/-- Witness: ending the sample poll at time 25 succeeds, sets both flags,
marks exactly its two tally slots, and a repeated `endPoll` fails
`AlreadyEnded`. -/
theorem endPoll_seals_poll_witness :
    endPoll sampleS2 25 0 = .ok sampleS3 ∧
      ((sampleS3.polls 0).ended = true ∧ (sampleS3.polls 0).publicReady = true ∧
        sampleS3.marked = sampleS2.marked ++
          (List.range (sampleS2.polls 0).optionCount).map
            (fun i => (sampleS2.polls 0).encryptedCounts.getD i Ciph.uninit)) ∧
      endPoll sampleS3 26 0 = .error (.AlreadyEnded, sampleS3) :=
  ⟨rfl, (@endPoll_seals_poll chkTrue sampleS2 25 0).2.2.2.1 sampleS3 rfl,
    (@endPoll_seals_poll chkTrue sampleS3 26 0).2.1 (by decide) (by decide)⟩

/-- C6: in every reachable state, every poll satisfies
`ended = publicReady` and `resultsPublished → publicReady`, and each of the
three lifecycle flags is monotone under every operation — once set true, no
operation resets it — so each poll occupies exactly one of Open,
Closed/PubliclyReadable, Published and never regresses. -/
theorem lifecycle_flags_invariant {chk : SigChecker} {s : State}
    (hR : Reachable chk s) :
    (∀ pid, (s.polls pid).ended = (s.polls pid).publicReady ∧
      ((s.polls pid).resultsPublished = true →
        (s.polls pid).publicReady = true)) ∧
    (∀ op pid,
      ((s.polls pid).ended = true → ((step chk s op).polls pid).ended = true) ∧
      ((s.polls pid).publicReady = true →
        ((step chk s op).polls pid).publicReady = true) ∧
      ((s.polls pid).resultsPublished = true →
        ((step chk s op).polls pid).resultsPublished = true)) :=
  ⟨fun pid => (reachable_inv hR).2.1 pid,
    fun op pid => step_flags_mono chk s op pid⟩

/-- Witness: the flag invariant and flag monotonicity instantiated on the
sample ended poll. -/
theorem lifecycle_flags_invariant_witness :
    ((sampleS3.polls 0).ended = (sampleS3.polls 0).publicReady ∧
      ((sampleS3.polls 0).resultsPublished = true →
        (sampleS3.polls 0).publicReady = true)) ∧
      ((sampleS3.polls 0).ended = true →
        ((step chkTrue sampleS3 (Op.castVote 9 15 0 1 2)).polls 0).ended = true) :=
  ⟨(lifecycle_flags_invariant (sampleS3_reachable chkTrue)).1 0,
    ((lifecycle_flags_invariant (sampleS3_reachable chkTrue)).2
      (Op.castVote 9 15 0 1 2) 0).1⟩

/-- C7: for every reachable state and every poll whose `ended` flag is set,
no transaction modifies any encrypted tally slot of that poll, and a
repeated `endPoll` fails `AlreadyEnded` (with the state unchanged), so the
publicly-decryptable marking step is never re-run. -/
theorem tally_frozen_after_end {chk : SigChecker} {s : State}
    (hR : Reachable chk s) {pollId : Nat}
    (hEnded : (s.polls pollId).ended = true) :
    (∀ op, ((step chk s op).polls pollId).encryptedCounts =
      (s.polls pollId).encryptedCounts) ∧
    (∀ now, endPoll s now pollId = .error (.AlreadyEnded, s)) := by
  obtain ⟨hWF, hFlag, hMin, hDef⟩ := reachable_inv hR
  have hpid : pollId < s.pollCount := by
    by_contra hcon
    push_neg at hcon
    have hd := hDef pollId hcon
    rw [hd] at hEnded
    simp [defaultPoll] at hEnded
  constructor
  · intro op
    cases op with
    | create sender title options st et =>
      rcases step_create_cases chk s sender title options st et with h | ⟨_, _, _, h⟩
      · rw [h]
      · rw [h, createPollEffect_polls_ne s sender title options st et (by omega)]
    | castVote sender now q ec ip =>
      rcases step_castVote_cases chk s sender now q ec ip with h | ⟨_, hq, _, _, _, h⟩
      · rw [h]
      · by_cases hpq : pollId = q
        · subst hpq
          simp [hEnded] at hq
        · rw [h, voteEffect_polls_ne s sender q ec ip hpq]
    | close now q =>
      rcases step_close_cases chk s now q with h | ⟨_, _, _, h⟩
      · rw [h]
      · by_cases hpq : pollId = q
        · subst hpq
          rw [h, endPollEffect_polls_self]
        · rw [h, endPollEffect_polls_ne s q hpq]
    | publish q cc pf =>
      rcases step_publish_cases chk s q cc pf with h | ⟨_, _, _, h⟩
      · rw [h]
      · by_cases hpq : pollId = q
        · subst hpq
          rw [h, publishEffect_polls_self]
        · rw [h, publishEffect_polls_ne s q cc hpq]
  · intro now
    unfold endPoll
    rw [if_neg (not_not_intro hpid), if_pos hEnded]

/-- Witness: after the sample poll has ended, a vote transaction leaves its
encrypted tally unchanged and a repeat `endPoll` fails `AlreadyEnded`. -/
theorem tally_frozen_after_end_witness :
    (sampleS3.polls 0).ended = true ∧
      ((step chkTrue sampleS3 (Op.castVote 9 15 0 1 2)).polls 0).encryptedCounts =
        (sampleS3.polls 0).encryptedCounts ∧
      endPoll sampleS3 30 0 = .error (.AlreadyEnded, sampleS3) :=
  ⟨by decide,
    (@tally_frozen_after_end chkTrue sampleS3 (sampleS3_reachable chkTrue) 0
      (by decide)).1 (Op.castVote 9 15 0 1 2),
    (@tally_frozen_after_end chkTrue sampleS3 (sampleS3_reachable chkTrue) 0
      (by decide)).2 30⟩

/-- C8: `createPoll` fails with `InvalidConfiguration` if and only if the
option count is below 2 or above 4 or `endTime ≤ startTime`; otherwise it
allocates the fresh, never-before-assigned id `pollCount` (whose record
still holds the all-default value), increments the counter, stores the
metadata with all lifecycle flags false (state Open), initializes all 4
fixed-width encrypted tally slots — including the unused ones beyond
`optionCount` — to an encrypted zero, and emits a `PollCreated` event
carrying (pollId, creator, title, optionCount, startTime, endTime). -/
theorem createPoll_spec {chk : SigChecker} {s : State} (hR : Reachable chk s)
    {sender : Nat} {title : String} {options : List String} {st et : Nat} :
    ((options.length < 2 ∨ 4 < options.length ∨ et ≤ st) →
      createPoll s sender title options st et =
        .error (.InvalidConfiguration, s)) ∧
    (∀ e s3, createPoll s sender title options st et = .error (e, s3) →
      e = .InvalidConfiguration ∧ s3 = s ∧
        (options.length < 2 ∨ 4 < options.length ∨ et ≤ st)) ∧
    (∀ s2 pid, createPoll s sender title options st et = .ok (s2, pid) →
      pid = s.pollCount ∧ s.polls pid = defaultPoll ∧
      s2.pollCount = s.pollCount + 1 ∧
      (s2.polls pid).title = title ∧
      (s2.polls pid).optionCount = options.length ∧
      (s2.polls pid).startTime = st ∧ (s2.polls pid).endTime = et ∧
      (s2.polls pid).creator = sender ∧
      (s2.polls pid).ended = false ∧ (s2.polls pid).publicReady = false ∧
      (s2.polls pid).resultsPublished = false ∧
      (∀ i, i < 4 →
        (s2.polls pid).encryptedCounts[i]? = some (Ciph.asEuint32 0)) ∧
      s2.events = s.events ++
        [Event.PollCreated pid sender title options.length st et]) := by
  obtain ⟨hWF, hFlag, hMin, hDef⟩ := reachable_inv hR
  refine ⟨?_, ?_, ?_⟩
  · intro hbad
    exact createPoll_error_iff.mpr ⟨rfl, rfl, hbad⟩
  · intro e s3 h
    exact createPoll_error_iff.mp h
  · intro s2 pid hok
    obtain ⟨h2, h4, hlt, hs2, hpid⟩ := createPoll_ok_iff.mp hok
    subst hs2; subst hpid
    have hdef : s.polls s.pollCount = defaultPoll := hDef _ (Nat.le_refl _)
    refine ⟨rfl, hdef, createPollEffect_pollCount s sender title options st et,
      ?_, ?_, ?_, ?_, ?_, ?_, ?_, ?_, ?_,
      createPollEffect_events s sender title options st et⟩
    · rw [createPollEffect_polls_self]
    · rw [createPollEffect_polls_self]
    · rw [createPollEffect_polls_self]
    · rw [createPollEffect_polls_self]
    · rw [createPollEffect_polls_self]
    · rw [createPollEffect_polls_self]
      show (s.polls s.pollCount).ended = false
      rw [hdef]
      rfl
    · rw [createPollEffect_polls_self]
      show (s.polls s.pollCount).publicReady = false
      rw [hdef]
      rfl
    · rw [createPollEffect_polls_self]
      show (s.polls s.pollCount).resultsPublished = false
      rw [hdef]
      rfl
    · intro i hi
      rw [createPollEffect_polls_self]
      refine initCountsLoop_getElem_lt (s.polls s.pollCount).encryptedCounts hi ?_
      have hl := (hWF s.pollCount).1
      omega

/-- Witness: the create-poll theorem applied to the sample configuration
(slot 3, beyond the two options, is also an encrypted zero) and to an
invalid single-option configuration. -/
theorem createPoll_spec_witness :
    createPoll initState 7 "T" ["A", "B"] 10 20 = .ok (sampleS1, 0) ∧
      (sampleS1.polls 0).encryptedCounts[3]? = some (Ciph.asEuint32 0) ∧
      createPoll initState 7 "T" ["A"] 10 20 =
        .error (.InvalidConfiguration, initState) :=
  ⟨rfl,
    ((@createPoll_spec chkTrue initState Reachable.init 7 "T" ["A", "B"]
        10 20).2.2 sampleS1 0 rfl).2.2.2.2.2.2.2.2.2.2.2.1 3 (by decide),
    (@createPoll_spec chkTrue initState Reachable.init 7 "T" ["A"] 10 20).1
      (Or.inl (by decide))⟩

/-- C9: atomicity on failure — whenever any of the four operations fails
with any error in any state, the state carried at the failure point is
exactly the pre-call state (poll count, every poll record, receipts, marked
handles and event log included): no partial effect survives a failure. -/
theorem failure_atomicity (chk : SigChecker) (s : State) :
    (∀ sender title options st et e s3,
      createPoll s sender title options st et = .error (e, s3) → s3 = s) ∧
    (∀ sender now pollId ec ip e s3,
      vote s sender now pollId ec ip = .error (e, s3) → s3 = s) ∧
    (∀ now pollId e s3, endPoll s now pollId = .error (e, s3) → s3 = s) ∧
    (∀ pollId clearCounts proofArg e s3,
      publishResults chk s pollId clearCounts proofArg = .error (e, s3) →
        s3 = s) :=
  ⟨fun _ _ _ _ _ _ _ h => createPoll_error_state h,
    fun _ _ _ _ _ _ _ h => vote_error_state h,
    fun _ _ _ _ h => endPoll_error_state h,
    fun _ _ _ _ _ h => publishResults_error_state h⟩

/-- Witness: a duplicate vote fails and the atomicity theorem yields that
the carried state is the pre-call state. -/
theorem failure_atomicity_witness :
    vote sampleS2 5 16 0 100 200 = .error (.DuplicateVote, sampleS2) ∧
      sampleS2 = sampleS2 :=
  ⟨rfl, (failure_atomicity chkTrue sampleS2).2.1 5 16 0 100 200
    Err.DuplicateVote sampleS2 rfl⟩

/-- C10: `createPoll` never consults the current time: creation succeeds
for every valid configuration regardless of where the window lies (its
success condition mentions no time oracle, and a far-future or entirely
past window is accepted); on a poll whose `endTime` is in the past every
vote fails with the time-window error `PollExpired`, yet `endPoll` on it
succeeds immediately. -/
theorem createPoll_ignores_current_time {chk : SigChecker} {s : State}
    (hR : Reachable chk s) {sender : Nat} {title : String}
    {options : List String} {st et : Nat} {s2 : State} {pid : Nat}
    (hok : createPoll s sender title options st et = .ok (s2, pid))
    {tv : Nat} (hpast : et ≤ tv) :
    (∀ voter ec ip, vote s2 voter tv pid ec ip = .error (.PollExpired, s2)) ∧
    (endPoll s2 tv pid).isOk = true ∧
    (∀ st2 et2, st2 < et2 →
      (createPoll s sender title options st2 et2).isOk = true) := by
  obtain ⟨h2, h4, hlt, hs2, hpid⟩ := createPoll_ok_iff.mp hok
  subst hpid
  obtain ⟨hWF, hFlag, hMin, hDef⟩ := reachable_inv hR
  have hdef : s.polls s.pollCount = defaultPoll := hDef _ (Nat.le_refl _)
  have hcount : s.pollCount < s2.pollCount := by
    rw [hs2, createPollEffect_pollCount]
    omega
  have hpoll : s2.polls s.pollCount =
      { s.polls s.pollCount with
          title := title
          optionCount := options.length
          startTime := st
          endTime := et
          creator := sender
          options := storeOptions options options.length (s.polls s.pollCount).options
          encryptedCounts := initCountsLoop 4 (s.polls s.pollCount).encryptedCounts } := by
    rw [hs2]
    exact createPollEffect_polls_self s sender title options st et
  have hended : (s2.polls s.pollCount).ended = false := by
    rw [hpoll]
    show (s.polls s.pollCount).ended = false
    rw [hdef]
    rfl
  have hst : (s2.polls s.pollCount).startTime = st := by rw [hpoll]
  have het : (s2.polls s.pollCount).endTime = et := by rw [hpoll]
  refine ⟨?_, ?_, ?_⟩
  · intro voter ec ip
    unfold vote
    rw [if_neg (not_not_intro hcount),
      if_neg (show ¬ ((s2.polls s.pollCount).ended = true) by simp [hended]),
      if_neg (show ¬ (tv < (s2.polls s.pollCount).startTime) by rw [hst]; omega),
      if_pos (show ¬ (tv < (s2.polls s.pollCount).endTime) by rw [het]; omega)]
  · have hend : endPoll s2 tv s.pollCount = .ok (endPollEffect s2 s.pollCount) :=
      endPoll_ok_iff.mpr ⟨hcount, hended, by rw [het]; exact hpast, rfl⟩
    rw [hend]
    rfl
  · intro st2 et2 hlt2
    have hok2 : createPoll s sender title options st2 et2 =
        .ok (createPollEffect s sender title options st2 et2, s.pollCount) :=
      createPoll_ok_iff.mpr ⟨h2, h4, hlt2, rfl, rfl⟩
    rw [hok2]
    rfl

/-- Witness: the sample poll (window [10, 20)) is created ignoring time; at
time 25 votes fail `PollExpired`, `endPoll` succeeds, and the same options
with a far-future window are accepted. -/
theorem createPoll_ignores_current_time_witness :
    createPoll initState 7 "T" ["A", "B"] 10 20 = .ok (sampleS1, 0) ∧
      vote sampleS1 9 25 0 1 2 = .error (.PollExpired, sampleS1) ∧
      (endPoll sampleS1 25 0).isOk = true ∧
      (createPoll initState 7 "T" ["A", "B"] 1000000 2000000).isOk = true :=
  ⟨rfl,
    (@createPoll_ignores_current_time chkTrue initState Reachable.init 7 "T"
      ["A", "B"] 10 20 sampleS1 0 rfl 25 (by decide)).1 9 1 2,
    (@createPoll_ignores_current_time chkTrue initState Reachable.init 7 "T"
      ["A", "B"] 10 20 sampleS1 0 rfl 25 (by decide)).2.1,
    (@createPoll_ignores_current_time chkTrue initState Reachable.init 7 "T"
      ["A", "B"] 10 20 sampleS1 0 rfl 25 (by decide)).2.2 1000000 2000000
      (by decide)⟩

end PrismVote
